import Mathlib

/-!
Shallow embedding of the report-assembly core of stden/SonarQubeChecker
(src/i18n.rs, src/report.rs, src/client.rs), together with proofs about it.

Rust String values are modelled as Lean String; HashMap<String, String> is
modelled as an association list (List (String × String)) with first-match
lookup; Option<T> as Option; anyhow::Result<T> as Except String.
-/

namespace SonarQubeChecker

/-! ## i18n.rs -/

/-- The Language enum of src/i18n.rs (lines 34-38). -/
inductive Language where
  | En
  | Ru
deriving DecidableEq, Repr

/-- The Translations struct of src/i18n.rs (lines 6-10): one table per language. -/
structure Translations where
  en : List (String × String)
  ru : List (String × String)

/-- Table selection done by the match on language in get_translation (lines 50-53). -/
def Translations.tableOf (t : Translations) : Language → List (String × String)
  | Language.En => t.en
  | Language.Ru => t.ru

/-- The hard-coded fallback table built in src/i18n.rs lines 14-31 when the bundled
translations.yaml fails to load: eleven English entries and an empty Russian table. -/
def defaultTranslations : Translations :=
  { en := [("report_title", "SonarQube Analysis Report"),
           ("generated", "Generated"),
           ("project", "Project"),
           ("last_analysis", "Last Analysis"),
           ("latest_issues", "Latest Issues"),
           ("no_analysis_available", "No analysis available"),
           ("no_open_issues", "No open issues found."),
           ("severity", "Severity"),
           ("message", "Message"),
           ("component", "Component"),
           ("line", "Line")],
    ru := [] }

/-- get_translation of src/i18n.rs (lines 49-59): look up the key in the selected
language's table, fall back to the English table, fall back to the key itself. -/
def get_translation (t : Translations) (key : String) (language : Language) : String :=
  match (t.tableOf language).lookup key with
  | some s => s
  | none =>
    match t.en.lookup key with
    | some s => s
    | none => key

/-- Models Rust str::to_lowercase as a character-wise lowercase map.  Rust's full
Unicode lowercasing and this map agree on every comparison with the ASCII code
"ru": both lowercase ASCII letters the same way, and no character outside the
ASCII uppercase letters lowercases to an ASCII letter under either. -/
def strToLower (s : String) : String :=
  String.mk (s.data.map Char.toLower)

/-- Language::from_str of src/i18n.rs (lines 41-46): lowercase the input and match;
"ru" selects Russian, everything else selects English. -/
def Language.from_str (s : String) : Language :=
  if strToLower s = "ru" then Language.Ru else Language.En

/-! ## Dates (the chrono calls made by src/report.rs)

report.rs calls chrono DateTime::parse_from_rfc3339 and then formats the parsed
DateTime<FixedOffset> with the format string "%Y-%m-%d %H:%M:%S UTC".  chrono is
an external library, so its behaviour is modelled here: an RFC-3339 timestamp is
date "-" date "-" date ("T"/"t"/" ") time ":" time ":" time [fraction] offset,
with calendar/range validation, and formatting a DateTime<FixedOffset> renders
its wall-clock fields in its own stored offset (chrono formats via the
timezone-local representation; it does not convert to UTC). -/

/-- A parsed RFC-3339 instant: wall-clock fields plus the offset east of UTC in
seconds, as in chrono DateTime<FixedOffset>. -/
structure FixedDateTime where
  year : Nat
  month : Nat
  day : Nat
  hour : Nat
  minute : Nat
  second : Nat
  nanos : Nat
  offsetSeconds : Int
deriving DecidableEq, Repr

/-- Numeric value of an ASCII digit character, none otherwise. -/
def digit? (c : Char) : Option Nat :=
  if '0' ≤ c ∧ c ≤ '9' then some (c.toNat - '0'.toNat) else none

/-- Read exactly two digits. -/
def parse2 : List Char → Option (Nat × List Char)
  | c1 :: c2 :: rest => do
    let d1 ← digit? c1
    let d2 ← digit? c2
    pure (d1 * 10 + d2, rest)
  | _ => none

/-- Read exactly four digits. -/
def parse4 : List Char → Option (Nat × List Char)
  | c1 :: c2 :: c3 :: c4 :: rest => do
    let d1 ← digit? c1
    let d2 ← digit? c2
    let d3 ← digit? c3
    let d4 ← digit? c4
    pure (((d1 * 10 + d2) * 10 + d3) * 10 + d4, rest)
  | _ => none

/-- Consume one expected character. -/
def expectChar (c : Char) : List Char → Option (List Char)
  | x :: rest => if x = c then some rest else none
  | [] => none

/-- Take a maximal run of digit characters. -/
def takeDigits : List Char → List Nat × List Char
  | [] => ([], [])
  | c :: rest =>
    match digit? c with
    | some d =>
      let (ds, r) := takeDigits rest
      (d :: ds, r)
    | none => ([], c :: rest)

/-- Nanoseconds denoted by a fraction digit string (truncated past 9 digits). -/
def nanosOfDigits (ds : List Nat) : Nat :=
  (ds.take 9 ++ List.replicate (9 - ds.length) 0).foldl (fun a d => a * 10 + d) 0

/-- Read an RFC-3339 offset: Z/z or a signed hh:mm pair. -/
def parseOffset : List Char → Option (Int × List Char)
  | 'Z' :: rest => some (0, rest)
  | 'z' :: rest => some (0, rest)
  | '+' :: rest => do
    let (h, r1) ← parse2 rest
    let r2 ← expectChar ':' r1
    let (m, r3) ← parse2 r2
    if h ≤ 23 ∧ m ≤ 59 then pure ((h * 3600 + m * 60 : Nat), r3) else none
  | '-' :: rest => do
    let (h, r1) ← parse2 rest
    let r2 ← expectChar ':' r1
    let (m, r3) ← parse2 r2
    if h ≤ 23 ∧ m ≤ 59 then pure (-((h * 3600 + m * 60 : Nat) : Int), r3) else none
  | _ => none

/-- Leap-year rule of the proleptic Gregorian calendar. -/
def isLeapYear (y : Nat) : Bool :=
  y % 4 = 0 ∧ (y % 100 ≠ 0 ∨ y % 400 = 0)

/-- Number of days in a month. -/
def daysInMonth (y m : Nat) : Nat :=
  if m = 2 then (if isLeapYear y then 29 else 28)
  else if m = 4 ∨ m = 6 ∨ m = 9 ∨ m = 11 then 30
  else 31

/-- Models chrono DateTime::parse_from_rfc3339: four-digit year, month, day,
a date/time separator (chrono accepts T, t or space), time with optional
fractional seconds, and a Z or signed hh:mm offset, the whole input consumed,
with field ranges validated (seconds up to 60 to admit leap seconds). -/
def parse_from_rfc3339 (s : String) : Option FixedDateTime := do
  let (y, r1) ← parse4 s.data
  let r2 ← expectChar '-' r1
  let (mo, r3) ← parse2 r2
  let r4 ← expectChar '-' r3
  let (d, r5) ← parse2 r4
  let r6 ← match r5 with
    | c :: rest => if c = 'T' ∨ c = 't' ∨ c = ' ' then some rest else none
    | [] => none
  let (h, r7) ← parse2 r6
  let r8 ← expectChar ':' r7
  let (mi, r9) ← parse2 r8
  let r10 ← expectChar ':' r9
  let (sec, r11) ← parse2 r10
  let (ns, r12) ← match r11 with
    | '.' :: rest =>
      let (ds, r) := takeDigits rest
      if ds.isEmpty then none else some (nanosOfDigits ds, r)
    | other => some ((0 : Nat), other)
  let (off, r13) ← parseOffset r12
  if r13 = [] ∧ 1 ≤ mo ∧ mo ≤ 12 ∧ 1 ≤ d ∧ d ≤ daysInMonth y mo ∧
     h ≤ 23 ∧ mi ≤ 59 ∧ sec ≤ 60 then
    pure ⟨y, mo, d, h, mi, sec, ns, off⟩
  else none

/-- Decimal rendering of a Nat zero-padded to two digits, as chrono %m, %d, %H,
%M and %S render the month, day and time fields. -/
def pad2 (n : Nat) : String :=
  if n < 10 then "0" ++ toString n else toString n

/-- Decimal rendering of a Nat zero-padded to four digits, as chrono %Y renders
the year. -/
def pad4 (n : Nat) : String :=
  if n < 10 then "000" ++ toString n
  else if n < 100 then "00" ++ toString n
  else if n < 1000 then "0" ++ toString n
  else toString n

/-- Models formatting a chrono DateTime<FixedOffset> with "%Y-%m-%d %H:%M:%S UTC":
the wall-clock fields are rendered in the datetime's own offset (chrono formats
the timezone-local time); the trailing "UTC" is literal text from the format
string, and no conversion to UTC takes place. -/
def formatWallClockUTCLabel (dt : FixedDateTime) : String :=
  pad4 dt.year ++ "-" ++ pad2 dt.month ++ "-" ++ pad2 dt.day ++ " " ++
  pad2 dt.hour ++ ":" ++ pad2 dt.minute ++ ":" ++ pad2 dt.second ++ " UTC"

/-! ### The UTC reading of a parsed instant

These definitions express what the specification asks for ("the rendered time is
the instant converted to UTC"); the source never performs this conversion.  The
calendar arithmetic is the standard proleptic-Gregorian day-count bijection. -/

/-- Day count since 1970-01-01 of a civil date (proleptic Gregorian). -/
def daysFromCivil (y m d : Int) : Int :=
  let y2 := if m ≤ 2 then y - 1 else y
  let era := Int.fdiv y2 400
  let yoe := y2 - era * 400
  let mp := Int.emod (m + 9) 12
  let doy := Int.fdiv (153 * mp + 2) 5 + d - 1
  let doe := yoe * 365 + Int.fdiv yoe 4 - Int.fdiv yoe 100 + doy
  era * 146097 + doe - 719468

/-- Civil date (year, month, day) of a day count since 1970-01-01. -/
def civilFromDays (z0 : Int) : Int × Int × Int :=
  let z := z0 + 719468
  let era := Int.fdiv z 146097
  let doe := z - era * 146097
  let yoe := Int.fdiv (doe - Int.fdiv doe 1460 + Int.fdiv doe 36524 - Int.fdiv doe 146096) 365
  let y := yoe + era * 400
  let doy := doe - (365 * yoe + Int.fdiv yoe 4 - Int.fdiv yoe 100)
  let mp := Int.fdiv (5 * doy + 2) 153
  let d := doy - Int.fdiv (153 * mp + 2) 5 + 1
  let m := mp + (if mp < 10 then 3 else -9)
  (if m ≤ 2 then y + 1 else y, m, d)

/-- Seconds since the epoch denoted by a parsed RFC-3339 instant: its wall-clock
seconds minus its offset east of UTC. -/
def epochSeconds (dt : FixedDateTime) : Int :=
  daysFromCivil dt.year dt.month dt.day * 86400 +
    (dt.hour * 3600 + dt.minute * 60 + dt.second : Nat) - dt.offsetSeconds

/-- The instant, as UTC wall-clock time, in the YYYY-MM-DD HH:MM:SS UTC shape the
specification describes. -/
def renderUtcInstant (t : Int) : String :=
  let days := Int.fdiv t 86400
  let sod := (Int.emod t 86400).toNat
  let ymd := civilFromDays days
  pad4 ymd.1.toNat ++ "-" ++ pad2 ymd.2.1.toNat ++ "-" ++ pad2 ymd.2.2.toNat ++ " " ++
  pad2 (sod / 3600) ++ ":" ++ pad2 (sod % 3600 / 60) ++ ":" ++ pad2 (sod % 60) ++ " UTC"

/-! ## client.rs -/

/-- The IssueData struct of src/client.rs (lines 30-36): the four display
fields of one issue, already defaulted to text. -/
structure IssueData where
  severity : String
  message : String
  component : String
  line : String
deriving DecidableEq, Repr

/-- One analysis record of the project_analyses/search response (client.rs 12-15). -/
structure Analysis where
  date : String
deriving DecidableEq, Repr

/-- The project_analyses/search response body (client.rs 7-10). -/
structure ProjectAnalysesResponse where
  analyses : List Analysis
deriving DecidableEq, Repr

/-- One raw issue of the issues/search response (client.rs 22-28); every field
may be absent. -/
structure Issue where
  severity : Option String
  message : Option String
  component : Option String
  line : Option Int
deriving DecidableEq, Repr

/-- The issues/search response body (client.rs 17-20). -/
structure IssuesResponse where
  issues : List Issue
deriving DecidableEq, Repr

/-- Outcome of one HTTP GET as seen by the client code: the send itself can fail
(network error), or a response arrives carrying a status code and a body whose
JSON decoding either succeeds or fails. -/
inductive FetchOutcome (α : Type) where
  | sendError (msg : String)
  | response (status : Nat) (body : Except String α)

/-- reqwest StatusCode::is_success: the 2xx range. -/
def statusIsSuccess (status : Nat) : Bool :=
  200 ≤ status ∧ status < 300

/-- SonarQubeClient::get_last_analysis_date of src/client.rs (lines 63-81), as a
function of the fetch outcome for the project: a send error propagates as Err
(the ? on send with context "Failed to send request"); a non-success status
returns Ok(None); a decode failure propagates as Err (the ? on json with context
"Failed to parse response"); otherwise the first analysis date is returned. -/
def get_last_analysis_date (outcome : FetchOutcome ProjectAnalysesResponse) :
    Except String (Option String) :=
  match outcome with
  | FetchOutcome.sendError _ => Except.error "Failed to send request"
  | FetchOutcome.response status body =>
    if statusIsSuccess status then
      match body with
      | Except.error _ => Except.error "Failed to parse response"
      | Except.ok data => Except.ok (data.analyses.head?.map Analysis.date)
    else
      Except.ok none

/-- The per-issue defaulting of client.rs lines 106-111: each absent field
becomes "N/A", a present line number is rendered in decimal. -/
def issueDataOfIssue (issue : Issue) : IssueData :=
  { severity := issue.severity.getD "N/A"
    message := issue.message.getD "N/A"
    component := issue.component.getD "N/A"
    line := (issue.line.map toString).getD "N/A" }

/-- SonarQubeClient::get_latest_issues of src/client.rs (lines 83-114), as a
function of the fetch outcome: a send error propagates as Err; a non-success
status returns Ok of the empty list; a decode failure propagates as Err;
otherwise every raw issue is defaulted into an IssueData.  (The max_issues
argument only shapes the query string and is not part of the outcome.) -/
def get_latest_issues (outcome : FetchOutcome IssuesResponse) :
    Except String (List IssueData) :=
  match outcome with
  | FetchOutcome.sendError _ => Except.error "Failed to send request"
  | FetchOutcome.response status body =>
    if statusIsSuccess status then
      match body with
      | Except.error _ => Except.error "Failed to parse response"
      | Except.ok data => Except.ok (data.issues.map issueDataOfIssue)
    else
      Except.ok []

/-! ## report.rs -/

/-- The ProjectData struct of src/report.rs (lines 6-11). -/
structure ProjectData where
  project_key : String
  last_analysis : Option String
  issues : List IssueData
deriving DecidableEq, Repr

/-- MarkdownReportGenerator::format_analysis_date of src/report.rs (lines 22-32),
with the generator's language and the translation tables explicit: an absent
timestamp renders the no_analysis_available label; a parse failure falls back to
the raw string; a parsed instant is formatted with "%Y-%m-%d %H:%M:%S UTC". -/
def format_analysis_date (t : Translations) (language : Language)
    (date_str : Option String) : String :=
  match date_str with
  | none => get_translation t "no_analysis_available" language
  | some date =>
    match parse_from_rfc3339 date with
    | some dt => formatWallClockUTCLabel dt
    | none => date

/-- The character-level content of message.replace('|', "\\|") in src/report.rs
lines 48-49: every pipe is prefixed with a backslash. -/
def escapeChars : List Char → List Char
  | [] => []
  | c :: rest =>
    if c = '|' then '\\' :: '|' :: escapeChars rest else c :: escapeChars rest

/-- message.replace('|', "\\|") of src/report.rs lines 48-49 on Lean strings. -/
def escapePipes (s : String) : String :=
  String.mk (escapeChars s.data)

/-- The data row pushed for one issue by the loop of src/report.rs lines 47-52:
severity and line verbatim, message and component pipe-escaped. -/
def issueRow (issue : IssueData) : String :=
  "| " ++ issue.severity ++ " | " ++ escapePipes issue.message ++ " | " ++
  escapePipes issue.component ++ " | " ++ issue.line ++ " |\n"

/-- The header row of src/report.rs line 44 with its resolved labels. -/
def issuesHeaderRow (t : Translations) (language : Language) : String :=
  "| " ++ get_translation t "severity" language ++ " | " ++
  get_translation t "message" language ++ " | " ++
  get_translation t "component" language ++ " | " ++
  get_translation t "line" language ++ " |\n"

/-- MarkdownReportGenerator::generate_issues_table of src/report.rs (lines
34-55): the no_open_issues label for an empty list, otherwise header row,
delimiter row, and one data row appended per issue in order. -/
def generate_issues_table (t : Translations) (language : Language)
    (issues : List IssueData) : String :=
  if issues.isEmpty then get_translation t "no_open_issues" language
  else
    issues.foldl (fun table issue => table ++ issueRow issue)
      (issuesHeaderRow t language ++ "|----------|---------|-----------|------|\n")

/-- The section pushed for one project by the loop of src/report.rs lines 69-78. -/
def projectSection (t : Translations) (language : Language)
    (project : ProjectData) : String :=
  "## " ++ get_translation t "project" language ++ ": " ++ project.project_key ++ "\n\n" ++
  "**" ++ get_translation t "last_analysis" language ++ ":** " ++
  format_analysis_date t language project.last_analysis ++ "\n\n" ++
  "**" ++ get_translation t "latest_issues" language ++ ":**\n\n" ++
  generate_issues_table t language project.issues ++ "\n\n---\n\n"

/-- MarkdownReportGenerator::generate_report of src/report.rs (lines 57-81) with
the Utc::now() reading abstracted to the string it is formatted into (the code
uses it only through now.format("%Y-%m-%d %H:%M:%S")): title line, generation
line, separator, then one section appended per project in order. -/
def generate_report (t : Translations) (language : Language) (now : String)
    (projects_data : List ProjectData) : String :=
  projects_data.foldl (fun report project => report ++ projectSection t language project)
    ("# " ++ get_translation t "report_title" language ++ "\n\n" ++
     get_translation t "generated" language ++ ": " ++ now ++ "\n\n" ++ "---\n\n")

/-! ## Markdown table cells

A Markdown table parser splits a row at the delimiter occurrences that are not
escaped, i.e. at every pipe character not immediately preceded by a backslash.
The Boolean state records whether the previous character was a backslash. -/

/-- Number of unescaped delimiter occurrences in a character list, given whether
the character before the list was a backslash. -/
def unescapedPipeCount (b : Bool) : List Char → Nat
  | [] => 0
  | c :: rest =>
    (if c = '|' ∧ b = false then 1 else 0) + unescapedPipeCount (decide (c = '\\')) rest

/-- Whether the last character of the list is a backslash (the incoming state if
the list is empty). -/
def backslashState (b : Bool) : List Char → Bool
  | [] => b
  | c :: rest => backslashState (decide (c = '\\')) rest

/-- Split a character list at its unescaped delimiter occurrences. -/
def splitCells (b : Bool) : List Char → List (List Char)
  | [] => [[]]
  | c :: rest =>
    if c = '|' ∧ b = false then [] :: splitCells false rest
    else
      match splitCells (decide (c = '\\')) rest with
      | [] => [[c]]
      | cell :: cells => (c :: cell) :: cells

/-- The string with every pipe character removed, used to compare against the
escaped rendering of the same text. -/
def stripPipes (s : String) : String :=
  String.mk (s.data.filter (fun c => c ≠ '|'))

/-- The data row for an issue whose message and component had every pipe removed
instead of escaped: the benchmark row of the escaping property. -/
def issueRowStripped (issue : IssueData) : String :=
  "| " ++ issue.severity ++ " | " ++ stripPipes issue.message ++ " | " ++
  stripPipes issue.component ++ " | " ++ issue.line ++ " |\n"

/-- Concatenation of a list of strings in order. -/
def concatAll : List String → String
  | [] => ""
  | s :: rest => s ++ concatAll rest

theorem splitCells_ne_nil (l : List Char) (b : Bool) : splitCells b l ≠ [] := by
  cases l with
  | nil => simp [splitCells]
  | cons c rest =>
    unfold splitCells
    split
    · simp
    · cases h : splitCells (decide (c = '\\')) rest <;> simp

theorem length_splitCells (l : List Char) (b : Bool) :
    (splitCells b l).length = unescapedPipeCount b l + 1 := by
  induction l generalizing b with
  | nil => rfl
  | cons c rest ih =>
    by_cases hc : c = '|' ∧ b = false
    · simp only [splitCells, unescapedPipeCount, if_pos hc, List.length_cons, ih]
      obtain ⟨rfl, rfl⟩ := hc
      simp [show decide (('|' : Char) = '\\') = false from rfl]
      omega
    · simp only [splitCells, unescapedPipeCount, if_neg hc]
      cases h : splitCells (decide (c = '\\')) rest with
      | nil => exact absurd h (splitCells_ne_nil rest _)
      | cons cell cells =>
        have := ih (decide (c = '\\'))
        rw [h] at this
        simp only [List.length_cons] at this ⊢
        omega

theorem unescapedPipeCount_append (xs : List Char) (b : Bool) (ys : List Char) :
    unescapedPipeCount b (xs ++ ys) =
      unescapedPipeCount b xs + unescapedPipeCount (backslashState b xs) ys := by
  induction xs generalizing b with
  | nil => simp [unescapedPipeCount, backslashState]
  | cons c rest ih =>
    simp only [List.cons_append, unescapedPipeCount, backslashState, List.append_eq,
      ih, Nat.add_assoc]

theorem unescapedPipeCount_escape (m : List Char) (b : Bool) :
    unescapedPipeCount b (escapeChars m) = 0 := by
  induction m generalizing b with
  | nil => rfl
  | cons c rest ih =>
    by_cases hc : c = '|'
    · subst hc
      simp only [escapeChars, if_pos rfl, unescapedPipeCount,
        show decide (('\\' : Char) = '\\') = true from rfl,
        show decide (('|' : Char) = '\\') = false from rfl, ih]
      simp [show ¬(('\\' : Char) = '|' ∧ b = false) from fun h => by exact absurd h.1 (by decide)]
    · simp only [escapeChars, if_neg hc, unescapedPipeCount, ih,
        if_neg (fun hh : c = '|' ∧ b = false => hc hh.1)]

theorem unescapedPipeCount_of_not_mem (l : List Char) (h : '|' ∉ l) (b : Bool) :
    unescapedPipeCount b l = 0 := by
  induction l generalizing b with
  | nil => rfl
  | cons c rest ih =>
    have hc : ¬ c = '|' := by rintro rfl; exact h (List.mem_cons_self _ _)
    have hrest : '|' ∉ rest := fun hm => h (List.mem_cons_of_mem _ hm)
    simp only [unescapedPipeCount, ih hrest,
      if_neg (fun hh : c = '|' ∧ b = false => hc hh.1)]

theorem unescapedPipeCount_space_cons (b : Bool) (l : List Char) :
    unescapedPipeCount b (' ' :: l) = unescapedPipeCount false l := by
  simp [unescapedPipeCount, show decide ((' ' : Char) = '\\') = false from rfl,
    show ¬((' ' : Char) = '|' ∧ b = false) from fun h => absurd h.1 (by decide)]

theorem unescapedPipeCount_pipe_cons (l : List Char) :
    unescapedPipeCount false ('|' :: l) = 1 + unescapedPipeCount false l := by
  simp [unescapedPipeCount, show decide (('|' : Char) = '\\') = false from rfl]

theorem unescapedPipeCount_append_space (X : List Char) (b : Bool) (l : List Char) :
    unescapedPipeCount b (X ++ ' ' :: l) =
      unescapedPipeCount b X + unescapedPipeCount false l := by
  rw [unescapedPipeCount_append, unescapedPipeCount_space_cons]

/-- Unescaped-delimiter count of a data row: five structural pipes plus whatever
unescaped pipes the severity and line cells carry, provided the message and
component cells carry none. -/
theorem unescapedPipeCount_row (sev m c line : List Char)
    (hm : unescapedPipeCount false m = 0) (hc : unescapedPipeCount false c = 0) :
    unescapedPipeCount false
      ('|' :: ' ' :: (sev ++ ' ' :: '|' :: ' ' ::
        (m ++ ' ' :: '|' :: ' ' :: (c ++ ' ' :: '|' :: ' ' ::
          (line ++ [' ', '|', '\n']))))) =
      5 + unescapedPipeCount false sev + unescapedPipeCount false line := by
  rw [unescapedPipeCount_pipe_cons, unescapedPipeCount_space_cons,
    unescapedPipeCount_append_space, unescapedPipeCount_pipe_cons,
    unescapedPipeCount_space_cons, unescapedPipeCount_append_space, hm,
    unescapedPipeCount_pipe_cons, unescapedPipeCount_space_cons,
    unescapedPipeCount_append_space, hc, unescapedPipeCount_pipe_cons,
    unescapedPipeCount_space_cons, unescapedPipeCount_append_space,
    unescapedPipeCount_pipe_cons]
  simp [unescapedPipeCount]
  omega

theorem foldl_append_concatAll {α : Type} (f : α → String) (l : List α) (init : String) :
    l.foldl (fun acc x => acc ++ f x) init = init ++ concatAll (l.map f) := by
  induction l generalizing init with
  | nil => simp [concatAll]
  | cons x xs ih =>
    simp only [List.foldl, List.map, concatAll, ih, String.append_assoc]

/-- The character list of a data row, in head-normal shape. -/
theorem issueRow_data (issue : IssueData) :
    (issueRow issue).data =
      '|' :: ' ' :: (issue.severity.data ++ ' ' :: '|' :: ' ' ::
        (escapeChars issue.message.data ++ ' ' :: '|' :: ' ' ::
          (escapeChars issue.component.data ++ ' ' :: '|' :: ' ' ::
            (issue.line.data ++ [' ', '|', '\n'])))) := by
  simp [issueRow, String.data_append, escapePipes, List.append_assoc,
    show ("| " : String).data = ['|', ' '] from rfl,
    show (" | " : String).data = [' ', '|', ' '] from rfl,
    show (" |\n" : String).data = [' ', '|', '\n'] from rfl]

/-- The character list of a pipe-stripped data row, in head-normal shape. -/
theorem issueRowStripped_data (issue : IssueData) :
    (issueRowStripped issue).data =
      '|' :: ' ' :: (issue.severity.data ++ ' ' :: '|' :: ' ' ::
        (issue.message.data.filter (fun c => c ≠ '|') ++ ' ' :: '|' :: ' ' ::
          (issue.component.data.filter (fun c => c ≠ '|') ++ ' ' :: '|' :: ' ' ::
            (issue.line.data ++ [' ', '|', '\n'])))) := by
  simp [issueRowStripped, String.data_append, stripPipes, List.append_assoc,
    show ("| " : String).data = ['|', ' '] from rfl,
    show (" | " : String).data = [' ', '|', ' '] from rfl,
    show (" |\n" : String).data = [' ', '|', '\n'] from rfl]

theorem unescapedPipeCount_filter (s : List Char) :
    unescapedPipeCount false (s.filter (fun c => c ≠ '|')) = 0 := by
  refine unescapedPipeCount_of_not_mem _ (fun hmem => ?_) false
  have := List.of_mem_filter hmem
  simp at this

theorem escapeChars_ne_pipe_cons (l t : List Char) : escapeChars l ≠ '|' :: t := by
  cases l with
  | nil => simp [escapeChars]
  | cons c rest =>
    by_cases hc : c = '|'
    · subst hc
      simp [escapeChars, show ('\\' : Char) ≠ '|' from by decide]
    · simp [escapeChars, hc]

theorem escapeChars_injective (xs : List Char) : ∀ ys : List Char,
    escapeChars xs = escapeChars ys → xs = ys := by
  induction xs with
  | nil =>
    intro ys h
    cases ys with
    | nil => rfl
    | cons y ys2 =>
      by_cases hy : y = '|'
      · subst hy; simp [escapeChars] at h
      · simp [escapeChars, hy] at h
  | cons x xs2 ih =>
    intro ys h
    cases ys with
    | nil =>
      by_cases hx : x = '|'
      · subst hx; simp [escapeChars] at h
      · simp [escapeChars, hx] at h
    | cons y ys2 =>
      by_cases hx : x = '|' <;> by_cases hy : y = '|'
      · subst hx; subst hy
        simp only [escapeChars, if_pos rfl] at h
        injection h with h1 h2
        injection h2 with h3 h4
        rw [ih ys2 h4]
      · subst hx
        simp only [escapeChars, if_pos rfl, if_neg hy] at h
        injection h with h1 h2
        exact absurd h2.symm (escapeChars_ne_pipe_cons ys2 (escapeChars xs2))
      · subst hy
        simp only [escapeChars, if_pos rfl, if_neg hx] at h
        injection h with h1 h2
        exact absurd h2 (escapeChars_ne_pipe_cons xs2 (escapeChars ys2))
      · simp only [escapeChars, if_neg hx, if_neg hy] at h
        injection h with h1 h2
        rw [h1, ih ys2 h2]

/-! ## Claim theorems -/

/-- C3: get_translation follows the three-tier fallback: the selected language's
table entry when present, otherwise the English table entry when present,
otherwise the key itself; in particular a key absent from every table resolves
to itself. -/
theorem get_translation_three_tier (tr : Translations) (k : String) (l : Language) :
    (∀ v, (tr.tableOf l).lookup k = some v → get_translation tr k l = v) ∧
    ((tr.tableOf l).lookup k = none →
      ∀ v, tr.en.lookup k = some v → get_translation tr k l = v) ∧
    ((tr.tableOf l).lookup k = none → tr.en.lookup k = none →
      get_translation tr k l = k) := by
  unfold get_translation
  refine ⟨?_, ?_, ?_⟩
  · intro v hv; rw [hv]
  · intro h1 v hv; rw [h1, hv]
  · intro h1 h2; rw [h1, h2]

/-- Witness for C3 at the fallback table: a key missing from the Russian table
resolves through the English table, and a key missing everywhere resolves to
itself. -/
theorem get_translation_three_tier_witness :
    get_translation defaultTranslations "severity" Language.Ru = "Severity" ∧
    get_translation defaultTranslations "missing_key" Language.Ru = "missing_key" :=
  ⟨(get_translation_three_tier defaultTranslations "severity" Language.Ru).2.1
      (by decide) "Severity" (by decide),
   (get_translation_three_tier defaultTranslations "missing_key" Language.Ru).2.2
      (by decide) (by decide)⟩

/-- C5: Language::from_str is total, matches the known codes case-insensitively,
sends every non-matching input (the empty string, "fr") to English, and report
generation after normalizing an unsupported code equals report generation with
the default language. -/
theorem from_str_normalization (s : String) :
    (strToLower s = "ru" → Language.from_str s = Language.Ru) ∧
    (strToLower s ≠ "ru" → Language.from_str s = Language.En) ∧
    Language.from_str "fr" = Language.En ∧
    Language.from_str "" = Language.En ∧
    (∀ (tr : Translations) (now : String) (ps : List ProjectData),
      generate_report tr (Language.from_str "fr") now ps =
        generate_report tr Language.En now ps) := by
  refine ⟨?_, ?_, by decide, by decide, ?_⟩
  · intro h; simp [Language.from_str, h]
  · intro h; simp [Language.from_str, h]
  · intro tr now ps
    rw [show Language.from_str "fr" = Language.En from by decide]

/-- Witness for C5: the case-insensitive match at "RU" and the default mapping
at "xx". -/
theorem from_str_normalization_witness :
    Language.from_str "RU" = Language.Ru ∧ Language.from_str "xx" = Language.En :=
  ⟨(from_str_normalization "RU").1 (by decide),
   (from_str_normalization "xx").2.1 (by decide)⟩

/-- C6: format_analysis_date never fails: an absent timestamp renders the
resolved no_analysis_available label, and a timestamp that does not parse as
RFC-3339 is returned unchanged. -/
theorem format_analysis_date_degrades (tr : Translations) (l : Language) :
    format_analysis_date tr l none = get_translation tr "no_analysis_available" l ∧
    ∀ s : String, parse_from_rfc3339 s = none →
      format_analysis_date tr l (some s) = s := by
  refine ⟨rfl, ?_⟩
  intro s hs
  simp [format_analysis_date, hs]

/-- Witness for C6: the malformed timestamp of the repository's own test is
returned verbatim. -/
theorem format_analysis_date_degrades_witness :
    format_analysis_date defaultTranslations Language.En (some "invalid-date") =
      "invalid-date" :=
  (format_analysis_date_degrades defaultTranslations Language.En).2
    "invalid-date" (by decide)

/-- C1, evaluation at the failing input: for the zero-offset scenario the code
agrees with the specification, but for the +05:00 input the code renders the
wall clock of the original offset with a literal "UTC" suffix, while the instant
converted to UTC reads 05:30:00 — the rendering and the UTC reading diverge. -/
theorem format_analysis_date_offset_divergence :
    format_analysis_date defaultTranslations Language.En
        (some "2024-01-15T10:30:00+00:00") = "2024-01-15 10:30:00 UTC" ∧
    parse_from_rfc3339 "2024-01-15T10:30:00+05:00" =
        some ⟨2024, 1, 15, 10, 30, 0, 0, 18000⟩ ∧
    format_analysis_date defaultTranslations Language.En
        (some "2024-01-15T10:30:00+05:00") = "2024-01-15 10:30:00 UTC" ∧
    renderUtcInstant (epochSeconds ⟨2024, 1, 15, 10, 30, 0, 0, 18000⟩) =
        "2024-01-15 05:30:00 UTC" ∧
    format_analysis_date defaultTranslations Language.En
        (some "2024-01-15T10:30:00+05:00") ≠
      renderUtcInstant (epochSeconds ⟨2024, 1, 15, 10, 30, 0, 0, 18000⟩) :=
  ⟨by decide, by decide, by decide, by decide, by decide⟩

/-- C4, counterexample: a network send error and a body decode failure are
propagated as errors by both fetch operations instead of degrading to a
successful empty result. -/
theorem client_propagates_errors :
    get_last_analysis_date (FetchOutcome.sendError "connection refused") =
      Except.error "Failed to send request" ∧
    get_latest_issues (FetchOutcome.sendError "connection refused") =
      Except.error "Failed to send request" ∧
    get_last_analysis_date (FetchOutcome.response 200 (Except.error "invalid json")) =
      Except.error "Failed to parse response" ∧
    get_latest_issues (FetchOutcome.response 200 (Except.error "invalid json")) =
      Except.error "Failed to parse response" := by
  refine ⟨rfl, rfl, ?_, ?_⟩ <;>
    simp [get_last_analysis_date, get_latest_issues, statusIsSuccess]

/-- C4, amended: only a non-success HTTP status is degraded — to no timestamp,
respectively an empty issue list — regardless of the response body. -/
theorem client_degrades_on_http_status (status : Nat)
    (h : statusIsSuccess status = false)
    (b1 : Except String ProjectAnalysesResponse) (b2 : Except String IssuesResponse) :
    get_last_analysis_date (FetchOutcome.response status b1) = Except.ok none ∧
    get_latest_issues (FetchOutcome.response status b2) = Except.ok [] := by
  constructor <;> simp [get_last_analysis_date, get_latest_issues, h]

/-- Witness for the amended C4 at HTTP 404. -/
theorem client_degrades_on_http_status_witness :
    get_last_analysis_date (FetchOutcome.response 404 (Except.ok ⟨[]⟩)) =
      Except.ok none ∧
    get_latest_issues (FetchOutcome.response 404 (Except.error "boom")) =
      Except.ok [] :=
  client_degrades_on_http_status 404 (by decide) (Except.ok ⟨[]⟩)
    (Except.error "boom")

/-- C7: generate_issues_table renders the resolved no_open_issues label for the
empty list, and otherwise exactly one header row of resolved labels in fixed
order, one delimiter row, and the data rows of the issues concatenated in input
order. -/
theorem generate_issues_table_shape (tr : Translations) (l : Language)
    (issues : List IssueData) :
    (issues = [] → generate_issues_table tr l issues =
      get_translation tr "no_open_issues" l) ∧
    (issues ≠ [] → generate_issues_table tr l issues =
      issuesHeaderRow tr l ++ "|----------|---------|-----------|------|\n" ++
        concatAll (issues.map issueRow)) := by
  constructor
  · rintro rfl; rfl
  · intro h
    cases issues with
    | nil => exact absurd rfl h
    | cons i is =>
      show (i :: is).foldl (fun table issue => table ++ issueRow issue) _ = _
      rw [foldl_append_concatAll issueRow (i :: is)]

/-- Witness for C7 at the empty list and at a one-issue list. -/
theorem generate_issues_table_shape_witness :
    generate_issues_table defaultTranslations Language.En [] =
      "No open issues found." ∧
    generate_issues_table defaultTranslations Language.En
        [⟨"CRITICAL", "NullPointer", "Main.java", "42"⟩] =
      issuesHeaderRow defaultTranslations Language.En ++
        "|----------|---------|-----------|------|\n" ++
        concatAll ([⟨"CRITICAL", "NullPointer", "Main.java", "42"⟩].map issueRow) :=
  ⟨((generate_issues_table_shape defaultTranslations Language.En []).1 rfl).trans
      (by decide),
   (generate_issues_table_shape defaultTranslations Language.En
      [⟨"CRITICAL", "NullPointer", "Main.java", "42"⟩]).2 (by simp)⟩

/-- C2: for an issue whose message contains the delimiter, the rendered message
and component cells contain no unescaped delimiter, and the data row splits into
no more cells at unescaped delimiters than the row built from the same issue
with every delimiter removed from those fields. -/
theorem escaping_preserves_cell_count (issue : IssueData)
    (_h : '|' ∈ issue.message.data) :
    unescapedPipeCount false (escapePipes issue.message).data = 0 ∧
    unescapedPipeCount false (escapePipes issue.component).data = 0 ∧
    (splitCells false (issueRow issue).data).length ≤
      (splitCells false (issueRowStripped issue).data).length := by
  refine ⟨unescapedPipeCount_escape _ _, unescapedPipeCount_escape _ _, ?_⟩
  rw [length_splitCells, length_splitCells, issueRow_data, issueRowStripped_data,
    unescapedPipeCount_row _ _ _ _ (unescapedPipeCount_escape _ _)
      (unescapedPipeCount_escape _ _),
    unescapedPipeCount_row _ _ _ _ (unescapedPipeCount_filter _)
      (unescapedPipeCount_filter _)]

/-- Witness for C2 at the specification's scenario issue. -/
theorem escaping_preserves_cell_count_witness :
    '|' ∈ ("Use || not |" : String).data ∧
    (splitCells false
        (issueRow ⟨"CRITICAL", "Use || not |", "Logic.x", "10"⟩).data).length ≤
      (splitCells false
        (issueRowStripped ⟨"CRITICAL", "Use || not |", "Logic.x", "10"⟩).data).length :=
  ⟨by decide,
   (escaping_preserves_cell_count ⟨"CRITICAL", "Use || not |", "Logic.x", "10"⟩
      (by decide)).2.2⟩

/-- C10: the cell-escaping function is injective: distinct texts render to
distinct escaped cells. -/
theorem escapePipes_injective (a b : String) (h : escapePipes a = escapePipes b) :
    a = b := by
  cases a with
  | mk da =>
    cases b with
    | mk db =>
      have h2 : escapeChars da = escapeChars db := congrArg String.data h
      rw [escapeChars_injective da db h2]

/-- Witness for C10. -/
theorem escapePipes_injective_witness : ("a|b" : String) = "a|b" :=
  escapePipes_injective "a|b" "a|b" rfl

/-- C8: for the empty project sequence the report is exactly title line,
generation line and separator; it contains the resolved title and generated
labels, and zero occurrences of the resolved project label.  The clock string is
only assumed not to contain the letter P (true of every %Y-%m-%d %H:%M:%S
rendering, which is made of digits, dashes, colons and a space). -/
theorem generate_report_empty_wellformed (now : String) (h : 'P' ∉ now.data) :
    generate_report defaultTranslations Language.En now [] =
      "# SonarQube Analysis Report\n\nGenerated: " ++ now ++ "\n\n---\n\n" ∧
    ("SonarQube Analysis Report" : String).data <:+:
      (generate_report defaultTranslations Language.En now []).data ∧
    ("Generated" : String).data <:+:
      (generate_report defaultTranslations Language.En now []).data ∧
    ¬ ("Project" : String).data <:+:
      (generate_report defaultTranslations Language.En now []).data := by
  have heq : generate_report defaultTranslations Language.En now [] =
      "# SonarQube Analysis Report\n\nGenerated: " ++ now ++ "\n\n---\n\n" := by
    show ("# " ++ get_translation defaultTranslations "report_title" Language.En ++
        "\n\n" ++ get_translation defaultTranslations "generated" Language.En ++
        ": " ++ now ++ "\n\n" ++ "---\n\n") = _
    rw [show get_translation defaultTranslations "report_title" Language.En =
          "SonarQube Analysis Report" from by decide,
        show get_translation defaultTranslations "generated" Language.En =
          "Generated" from by decide]
    simp [String.append_assoc]
  have hdata : (generate_report defaultTranslations Language.En now []).data =
      ("# SonarQube Analysis Report\n\nGenerated: " : String).data ++ now.data ++
        ("\n\n---\n\n" : String).data := by
    rw [heq]
    simp [String.data_append]
  refine ⟨heq, ?_, ?_, ?_⟩
  · rw [hdata, List.append_assoc]
    exact (show ("SonarQube Analysis Report" : String).data <:+:
        ("# SonarQube Analysis Report\n\nGenerated: " : String).data from by decide).trans
      ⟨[], _, rfl⟩
  · rw [hdata, List.append_assoc]
    exact (show ("Generated" : String).data <:+:
        ("# SonarQube Analysis Report\n\nGenerated: " : String).data from by decide).trans
      ⟨[], _, rfl⟩
  · intro hinf
    have hP : 'P' ∈ (generate_report defaultTranslations Language.En now []).data :=
      hinf.subset (by decide : 'P' ∈ ("Project" : String).data)
    rw [hdata] at hP
    rcases List.mem_append.mp hP with hP2 | h3
    · rcases List.mem_append.mp hP2 with h1 | h2
      · exact absurd h1 (by decide)
      · exact h h2
    · exact absurd h3 (by decide)

/-- Witness for C8 at a concrete clock reading. -/
theorem generate_report_empty_wellformed_witness :
    generate_report defaultTranslations Language.En "2024-01-15 10:30:00" [] =
      "# SonarQube Analysis Report\n\nGenerated: " ++ "2024-01-15 10:30:00" ++
        "\n\n---\n\n" ∧
    ¬ ("Project" : String).data <:+:
      (generate_report defaultTranslations Language.En "2024-01-15 10:30:00" []).data :=
  ⟨(generate_report_empty_wellformed "2024-01-15 10:30:00" (by decide)).1,
   (generate_report_empty_wellformed "2024-01-15 10:30:00" (by decide)).2.2.2⟩

/-- C9: generate_report depends only on the translation tables, the language,
the clock reading and the project data: two invocations with equal inputs
produce byte-identical output. -/
theorem generate_report_deterministic (tr : Translations) (l1 l2 : Language)
    (now1 now2 : String) (ps1 ps2 : List ProjectData)
    (hl : l1 = l2) (hnow : now1 = now2) (hps : ps1 = ps2) :
    generate_report tr l1 now1 ps1 = generate_report tr l2 now2 ps2 := by
  subst hl; subst hnow; subst hps; rfl

/-- Witness for C9. -/
theorem generate_report_deterministic_witness :
    generate_report defaultTranslations Language.En "2024-01-15 10:30:00" [] =
      generate_report defaultTranslations Language.En "2024-01-15 10:30:00" [] :=
  generate_report_deterministic defaultTranslations Language.En Language.En
    "2024-01-15 10:30:00" "2024-01-15 10:30:00" [] [] rfl rfl rfl

end SonarQubeChecker
